import Mathlib

/-!
Verification of the symlink reconciler and secret scanner of the
dotfiles-tool repository (src/symlink/mod.rs, src/symlink/manual.rs,
src/backup/secrets.rs), as a shallow embedding in Lean 4.

Modelling choices:
* A filesystem path is a list of components (`FsPath`).
* Only the flat target directory matters to the reconciler: its state is
  an association list from child name to node (`file`, `dir`, or
  `link dest`), plus a flag recording whether the target directory itself
  exists (`parentExists`, mutated by `create_dir_all` on the parent).
* `FsPath::exists()` is modelled as presence of the entry; links are assumed
  non-dangling, and `read_link` always succeeds on a link entry.
* The source directory is given by an existence flag plus the list of its
  child names (directory-iteration order), matching the single-level walk
  the Rust code performs; the source is taken to be a directory.
* Errors (`DotfilesError::SymlinkFailed`) are modelled with `Except`;
  the Debug formatting of a path in messages is abstracted by `pathRepr`.
-/

/-- A filesystem path, as a list of components. -/
abbrev FsPath : Type := List String

/-- A node occupying a name in the target directory: a plain file, a plain
directory, or a symbolic link with its destination path. -/
inductive FsNode where
  | file : FsNode
  | dir : FsNode
  | link (dest : FsPath) : FsNode
deriving DecidableEq

/-- State of the target directory: whether the directory itself exists, and
its entries as an association list from child name to node. -/
structure TargetState where
  parentExists : Bool
  entries : List (String × FsNode)
deriving DecidableEq

/-- Looks up the node stored under a name (models `Path::exists` /
`is_symlink` / `is_dir` probes on `target.join(name)`). -/
def lookupName : List (String × FsNode) → String → Option FsNode
  | [], _ => none
  | (k, v) :: rest, n => if k = n then some v else lookupName rest n

/-- Removes every entry under a name (models `std::fs::remove_file`). -/
def eraseName : List (String × FsNode) → String → List (String × FsNode)
  | [], _ => []
  | (k, v) :: rest, n => if k = n then eraseName rest n else (k, v) :: eraseName rest n

/-- Rust `SymlinkStatus` from src/symlink/mod.rs. -/
inductive SymlinkStatus where
  | Created (source target : FsPath)
  | AlreadyExists (target : FsPath)
  | Conflict (target : FsPath) (reason : String)
  | Skipped (target : FsPath) (reason : String)
deriving DecidableEq

/-- Rust `SymlinkReport` from src/symlink/mod.rs: four buckets filled in
insertion order. -/
structure SymlinkReport where
  created : List FsPath
  already_exists : List FsPath
  conflicts : List (FsPath × String)
  skipped : List (FsPath × String)
deriving DecidableEq

/-- `SymlinkReport::new`. -/
def SymlinkReport.new : SymlinkReport := ⟨[], [], [], []⟩

/-- `SymlinkReport::add`: pushes the status into the matching bucket. -/
def SymlinkReport.add (r : SymlinkReport) (s : SymlinkStatus) : SymlinkReport :=
  match s with
  | .Created _ target => { r with created := r.created ++ [target] }
  | .AlreadyExists target => { r with already_exists := r.already_exists ++ [target] }
  | .Conflict target reason => { r with conflicts := r.conflicts ++ [(target, reason)] }
  | .Skipped target reason => { r with skipped := r.skipped ++ [(target, reason)] }

/-- Rust `DotfilesError` (only the variant the reconciler raises). -/
inductive DotfilesError where
  | SymlinkFailed (msg : String)
deriving DecidableEq

/-- Rendering of a path inside an error message (abstracts Debug
formatting of `PathBuf`). -/
def pathRepr (p : FsPath) : String := "/".intercalate p

/-- Reason string pushed by `detect_conflicts` for a mis-pointing link. -/
def wrongLinkDetectMsg : String := "Symlink exists but points to wrong location"

/-- Reason string pushed by `detect_conflicts` for an existing directory. -/
def dirExistsMsg : String := "Directory already exists"

/-- Reason string pushed by `detect_conflicts` for an existing file. -/
def fileExistsMsg : String := "File already exists"

/-- Reason string of `create_symlink` for an existing directory. -/
def conflictDirMsg : String := "Directory exists"

/-- Reason string of `create_symlink` for an existing file. -/
def conflictFileMsg : String := "File exists"

/-- Reason string of `create_symlink` for a link pointing elsewhere. -/
def wrongLinkConflictMsg (d : FsPath) : String :=
  "Symlink exists and points to " ++ pathRepr d

/-- Reason string of `remove_symlink` for a non-link target. -/
def notALinkMsg : String := "Not a symlink, will not remove"

/-- Reason string of `remove_symlink` for an absent target. -/
def skipNoLinkMsg : String := "Symlink does not exist"

/-- Error message of `symlink`/`remove` for a missing source directory. -/
def missingSourceMsg (p : FsPath) : String :=
  "Source directory does not exist: " ++ pathRepr p

/-- Synthetic conflict reason of `detect_conflicts` for a missing source. -/
def detectMissingSourceMsg : String := "Source directory does not exist"

/-- Tail of `ManualSymlinker::create_symlink` (manual.rs lines 71-92): create
the parent directory if needed (unless dry-run), create the link (unless
dry-run), and report `Created`. Reached only when no entry occupies `name`. -/
def finishCreate (dryRun : Bool) (source target : FsPath) (name : String)
    (st : TargetState) : SymlinkStatus × TargetState :=
  let st1 := if !st.parentExists && !dryRun then { st with parentExists := true } else st
  let st2 := if dryRun then st1 else { st1 with entries := (name, FsNode.link source) :: st1.entries }
  (.Created source target, st2)

/-- `ManualSymlinker::create_symlink` (manual.rs lines 31-93). `source` is the
full source child path, `name` the child name inside `targetDir`. -/
def create_symlink (dryRun force : Bool) (source : FsPath) (name : String)
    (targetDir : FsPath) (st : TargetState) : SymlinkStatus × TargetState :=
  let target := targetDir ++ [name]
  match lookupName st.entries name with
  | some (FsNode.link d) =>
    if d = source then
      (.AlreadyExists target, st)
    else if force then
      let st1 := if dryRun then st else { st with entries := eraseName st.entries name }
      finishCreate dryRun source target name st1
    else
      (.Conflict target (wrongLinkConflictMsg d), st)
  | some FsNode.dir => (.Conflict target conflictDirMsg, st)
  | some FsNode.file => (.Conflict target conflictFileMsg, st)
  | none => finishCreate dryRun source target name st

/-- `ManualSymlinker::remove_symlink` (manual.rs lines 96-119). -/
def remove_symlink (dryRun : Bool) (name : String) (targetDir : FsPath)
    (st : TargetState) : SymlinkStatus × TargetState :=
  let target := targetDir ++ [name]
  match lookupName st.entries name with
  | none => (.Skipped target skipNoLinkMsg, st)
  | some (FsNode.link _) =>
    let st1 := if dryRun then st else { st with entries := eraseName st.entries name }
    (.Created [] target, st1)
  | some _ => (.Conflict target notALinkMsg, st)

/-- Loop body of `ManualSymlinker::symlink` over the source children
(manual.rs lines 143-153). -/
def applyGo (dryRun force : Bool) (source targetDir : FsPath) :
    List String → SymlinkReport → TargetState → SymlinkReport × TargetState
  | [], rep, st => (rep, st)
  | n :: rest, rep, st =>
    let r := create_symlink dryRun force (source ++ [n]) n targetDir st
    applyGo dryRun force source targetDir rest (rep.add r.1) r.2

/-- `ManualSymlinker::symlink` (manual.rs lines 129-166), for a source
directory with the given children. Fails when the source does not exist. -/
def symlink (dryRun force : Bool) (srcExists : Bool) (source : FsPath)
    (children : List String) (targetDir : FsPath) (st : TargetState) :
    Except DotfilesError (SymlinkReport × TargetState) :=
  if srcExists then
    .ok (applyGo dryRun force source targetDir children SymlinkReport.new st)
  else
    .error (.SymlinkFailed (missingSourceMsg source))

/-- Loop body of `ManualSymlinker::remove` over the source children
(manual.rs lines 191-201). -/
def removeGo (dryRun : Bool) (targetDir : FsPath) :
    List String → SymlinkReport → TargetState → SymlinkReport × TargetState
  | [], rep, st => (rep, st)
  | n :: rest, rep, st =>
    let r := remove_symlink dryRun n targetDir st
    removeGo dryRun targetDir rest (rep.add r.1) r.2

/-- `ManualSymlinker::remove` (manual.rs lines 177-213), for a source
directory with the given children. Fails when the source does not exist. -/
def removeLinks (dryRun : Bool) (srcExists : Bool) (source : FsPath)
    (children : List String) (targetDir : FsPath) (st : TargetState) :
    Except DotfilesError (SymlinkReport × TargetState) :=
  if srcExists then
    .ok (removeGo dryRun targetDir children SymlinkReport.new st)
  else
    .error (.SymlinkFailed (missingSourceMsg source))

/-- Per-child body of the `detect_conflicts` loop (mod.rs lines 146-170):
`none` when the target entry is absent or a correctly-resolving link,
otherwise the pushed conflict pair. -/
def detectEntry (source targetDir : FsPath) (st : TargetState) (n : String) :
    Option (FsPath × String) :=
  match lookupName st.entries n with
  | none => none
  | some (FsNode.link d) =>
    if d = source ++ [n] then none
    else some (targetDir ++ [n], wrongLinkDetectMsg)
  | some FsNode.dir => some (targetDir ++ [n], dirExistsMsg)
  | some FsNode.file => some (targetDir ++ [n], fileExistsMsg)

/-- `detect_conflicts` (mod.rs lines 134-174): read-only scan over the source
children, one conflict pushed per offending target entry. -/
def detect_conflicts (srcExists : Bool) (source : FsPath) (children : List String)
    (targetDir : FsPath) (st : TargetState) : List (FsPath × String) :=
  if srcExists then
    children.filterMap (detectEntry source targetDir st)
  else
    [(source, detectMissingSourceMsg)]

/-- Final target state of a reconciler call: the state on success, the
unchanged input state on error (the Rust code raises the missing-source
error before touching the filesystem). -/
def finalState (r : Except DotfilesError (SymlinkReport × TargetState))
    (st : TargetState) : TargetState :=
  match r with
  | .ok p => p.2
  | .error _ => st

theorem create_symlink_dryRun_state (force : Bool) (source : FsPath) (name : String)
    (targetDir : FsPath) (st : TargetState) :
    (create_symlink true force source name targetDir st).2 = st := by
  unfold create_symlink finishCreate
  rcases h : lookupName st.entries name with _ | (_ | _ | d)
  · simp
  · simp
  · simp
  · by_cases hd : d = source
    · simp [hd]
    · by_cases hf : force <;> simp [hd, hf]

theorem remove_symlink_dryRun_state (name : String) (targetDir : FsPath)
    (st : TargetState) : (remove_symlink true name targetDir st).2 = st := by
  unfold remove_symlink
  rcases h : lookupName st.entries name with _ | e
  · simp
  · rcases e with _ | _ | d <;> simp

theorem applyGo_dryRun_state (force : Bool) (source targetDir : FsPath)
    (children : List String) (rep : SymlinkReport) (st : TargetState) :
    (applyGo true force source targetDir children rep st).2 = st := by
  induction children generalizing rep st with
  | nil => rfl
  | cons n rest ih =>
    rw [applyGo, create_symlink_dryRun_state]
    exact ih _ _

theorem removeGo_dryRun_state (targetDir : FsPath) (children : List String)
    (rep : SymlinkReport) (st : TargetState) :
    (removeGo true targetDir children rep st).2 = st := by
  induction children generalizing rep st with
  | nil => rfl
  | cons n rest ih =>
    rw [removeGo, remove_symlink_dryRun_state]
    exact ih _ _

/-- C7: dry-run no-op — any `apply` (`symlink`) or `remove` call with
`dryRun = true` leaves the target filesystem state exactly as it was: no
link is created or removed and no parent directory is created. -/
theorem dry_run_noop (force srcExists : Bool) (source targetDir : FsPath)
    (children : List String) (st : TargetState) :
    finalState (symlink true force srcExists source children targetDir st) st = st ∧
    finalState (removeLinks true srcExists source children targetDir st) st = st := by
  constructor
  · unfold symlink
    by_cases hs : srcExists
    · simp [hs, finalState, applyGo_dryRun_state]
    · simp [hs, finalState]
  · unfold removeLinks
    by_cases hs : srcExists
    · simp [hs, finalState, removeGo_dryRun_state]
    · simp [hs, finalState]

/-- C6: missing-source policy — when the source directory does not exist,
`apply` (`symlink`) and `remove` fail with a `SymlinkFailed` error and
produce no report, while `detect_conflicts` succeeds and returns exactly one
synthetic conflict entry naming the missing source. -/
theorem missing_source_policy (dryRun force : Bool) (source targetDir : FsPath)
    (children : List String) (st : TargetState) :
    symlink dryRun force false source children targetDir st =
      .error (.SymlinkFailed (missingSourceMsg source)) ∧
    removeLinks dryRun false source children targetDir st =
      .error (.SymlinkFailed (missingSourceMsg source)) ∧
    detect_conflicts false source children targetDir st =
      [(source, detectMissingSourceMsg)] := by
  refine ⟨rfl, rfl, rfl⟩

theorem lookupName_eraseName (l : List (String × FsNode)) (n m : String) :
    lookupName (eraseName l n) m = if n = m then none else lookupName l m := by
  induction l with
  | nil => simp [eraseName, lookupName]
  | cons p rest ih =>
    obtain ⟨k, v⟩ := p
    by_cases hk : k = n
    · subst hk
      rw [show eraseName ((k, v) :: rest) k = eraseName rest k from by
          rw [eraseName, if_pos rfl], ih]
      by_cases hm : k = m
      · rw [if_pos hm, if_pos hm]
      · rw [if_neg hm, if_neg hm, lookupName, if_neg hm]
    · rw [show eraseName ((k, v) :: rest) n = (k, v) :: eraseName rest n from by
          rw [eraseName, if_neg hk], lookupName]
      by_cases hm : k = m
      · subst hm
        rw [if_pos rfl, if_neg (fun h => hk h.symm), lookupName, if_pos rfl]
      · rw [if_neg hm, ih, lookupName, if_neg hm]

/-- C5: force asymmetry of apply — a target occupied by a link resolving
elsewhere is removed and recreated under `force` (outcome `Created`) but
reported as `Conflict` without `force`; a target occupied by a plain file or
directory is reported as `Conflict` and left untouched regardless of `force`
and `dryRun`. -/
theorem force_asymmetry (source : FsPath) (name : String) (targetDir : FsPath)
    (st : TargetState) :
    (∀ d, lookupName st.entries name = some (FsNode.link d) → d ≠ source →
      create_symlink false true source name targetDir st =
        (.Created source (targetDir ++ [name]),
          ⟨true, (name, FsNode.link source) :: eraseName st.entries name⟩) ∧
      create_symlink false false source name targetDir st =
        (.Conflict (targetDir ++ [name]) (wrongLinkConflictMsg d), st)) ∧
    (∀ dryRun force, lookupName st.entries name = some FsNode.file →
      create_symlink dryRun force source name targetDir st =
        (.Conflict (targetDir ++ [name]) conflictFileMsg, st)) ∧
    (∀ dryRun force, lookupName st.entries name = some FsNode.dir →
      create_symlink dryRun force source name targetDir st =
        (.Conflict (targetDir ++ [name]) conflictDirMsg, st)) := by
  refine ⟨fun d hd hne => ?_, fun dryRun force h => ?_, fun dryRun force h => ?_⟩
  · constructor
    · unfold create_symlink finishCreate
      rw [hd]
      simp only [hne, if_false, if_true, Bool.not_false, Bool.and_true]
      rcases st with ⟨pe, es⟩
      cases pe <;> simp
    · unfold create_symlink
      rw [hd]
      simp [hne]
  · unfold create_symlink
    rw [h]
  · unfold create_symlink
    rw [h]

/-- Concrete instance of `force_asymmetry`: a target entry `a` holding a link
to `x` is recreated under force and reported as a conflict without force,
and plain file/directory entries conflict even under force. -/
theorem force_asymmetry_witness :
    create_symlink false true ["s", "a"] "a" ["t"] ⟨true, [("a", FsNode.link ["x"])]⟩ =
      (.Created ["s", "a"] ["t", "a"],
        ⟨true, [("a", FsNode.link ["s", "a"])]⟩) ∧
    create_symlink false false ["s", "a"] "a" ["t"] ⟨true, [("a", FsNode.link ["x"])]⟩ =
      (.Conflict ["t", "a"] (wrongLinkConflictMsg ["x"]), ⟨true, [("a", FsNode.link ["x"])]⟩) ∧
    create_symlink false true ["s", "b"] "b" ["t"] ⟨true, [("b", FsNode.file)]⟩ =
      (.Conflict ["t", "b"] conflictFileMsg, ⟨true, [("b", FsNode.file)]⟩) := by
  have h1 := (force_asymmetry ["s", "a"] "a" ["t"] ⟨true, [("a", FsNode.link ["x"])]⟩).1
    ["x"] (by decide) (by decide)
  have h2 := (force_asymmetry ["s", "b"] "b" ["t"] ⟨true, [("b", FsNode.file)]⟩).2.1
    false true (by decide)
  exact ⟨by simpa [eraseName] using h1.1, h1.2, h2⟩

/-- C8: dry-run reports the intended action — when no entry occupies the
target path, `apply`'s per-entry operation returns a `Created` outcome even
with `dryRun = true`, leaving the filesystem state unchanged. -/
theorem dry_run_reports_created (force : Bool) (source : FsPath) (name : String)
    (targetDir : FsPath) (st : TargetState)
    (h : lookupName st.entries name = none) :
    create_symlink true force source name targetDir st =
      (.Created source (targetDir ++ [name]), st) := by
  unfold create_symlink finishCreate
  rw [h]
  simp

/-- Concrete instance of `dry_run_reports_created`: an absent target entry is
reported `Created` by a dry run that changes nothing. -/
theorem dry_run_reports_created_witness :
    create_symlink true false ["s", "a"] "a" ["t"] ⟨true, []⟩ =
      (.Created ["s", "a"] ["t", "a"], ⟨true, []⟩) :=
  dry_run_reports_created false ["s", "a"] "a" ["t"] ⟨true, []⟩ (by decide)

/-- C10: removed links are recorded as `Created` — when the target entry is
an existing symlink, `remove`'s per-entry operation removes it and reports a
`Created` outcome whose source path is empty, and `SymlinkReport::add` files
that outcome in the `created` bucket. -/
theorem remove_counted_as_created (name : String) (targetDir : FsPath)
    (st : TargetState) (d : FsPath) (rep : SymlinkReport)
    (h : lookupName st.entries name = some (FsNode.link d)) :
    remove_symlink false name targetDir st =
      (.Created [] (targetDir ++ [name]), ⟨st.parentExists, eraseName st.entries name⟩) ∧
    rep.add (.Created [] (targetDir ++ [name])) =
      { rep with created := rep.created ++ [targetDir ++ [name]] } := by
  constructor
  · unfold remove_symlink
    rw [h]
    rfl
  · rfl

/-- Concrete instance of `remove_counted_as_created`: removing the link at
`a` yields a `Created` outcome with empty source that lands in the `created`
bucket of the report. -/
theorem remove_counted_as_created_witness :
    remove_symlink false "a" ["t"] ⟨true, [("a", FsNode.link ["s", "a"])]⟩ =
      (.Created [] ["t", "a"], ⟨true, []⟩) ∧
    SymlinkReport.new.add (.Created [] ["t", "a"]) =
      { SymlinkReport.new with created := [(["t", "a"] : FsPath)] } := by
  have h := remove_counted_as_created "a" ["t"] ⟨true, [("a", FsNode.link ["s", "a"])]⟩
    ["s", "a"] SymlinkReport.new (by decide)
  exact ⟨by simpa [eraseName] using h.1, h.2⟩

theorem snoc_inj {t : FsPath} {m n : String} (h : t ++ [m] = t ++ [n]) : m = n := by
  have h2 : ([m] : List String) = [n] := by
    induction t with
    | nil => exact h
    | cons a t ih => exact ih (List.cons_injective h)
  simpa using h2

theorem detectEntry_fst (source targetDir : FsPath) (st : TargetState) (m : String)
    (p : FsPath × String) (h : detectEntry source targetDir st m = some p) :
    p.1 = targetDir ++ [m] := by
  rcases hl : lookupName st.entries m with _ | (_ | _ | d) <;>
    simp only [detectEntry, hl] at h
  · exact absurd h (by simp)
  · cases h
    rfl
  · cases h
    rfl
  · by_cases hd : d = source ++ [m]
    · rw [if_pos hd] at h
      exact absurd h (by simp)
    · rw [if_neg hd] at h
      cases h
      rfl

theorem mem_detect_iff (source targetDir : FsPath) (children : List String)
    (st : TargetState) (n : String) (hn : n ∈ children) (r : String) :
    ((targetDir ++ [n], r) ∈ detect_conflicts true source children targetDir st ↔
      detectEntry source targetDir st n = some (targetDir ++ [n], r)) := by
  unfold detect_conflicts
  rw [if_pos rfl, List.mem_filterMap]
  constructor
  · rintro ⟨m, hm, hfm⟩
    have := detectEntry_fst source targetDir st m _ hfm
    have hmn : m = n := snoc_inj this.symm
    subst hmn
    exact hfm
  · intro h
    exact ⟨n, hn, h⟩

theorem detectEntry_eq_iff (source targetDir : FsPath) (st : TargetState) (n : String) :
    (detectEntry source targetDir st n = some (targetDir ++ [n], wrongLinkDetectMsg) ↔
      ∃ d, lookupName st.entries n = some (FsNode.link d) ∧ d ≠ source ++ [n]) ∧
    (detectEntry source targetDir st n = some (targetDir ++ [n], fileExistsMsg) ↔
      lookupName st.entries n = some FsNode.file) ∧
    (detectEntry source targetDir st n = some (targetDir ++ [n], dirExistsMsg) ↔
      lookupName st.entries n = some FsNode.dir) ∧
    ((∃ r, detectEntry source targetDir st n = some (targetDir ++ [n], r)) ↔
      ∃ e, lookupName st.entries n = some e ∧ e ≠ FsNode.link (source ++ [n])) := by
  rcases hl : lookupName st.entries n with _ | (_ | _ | d)
  · simp [detectEntry, hl]
  · simp [detectEntry, hl, wrongLinkDetectMsg, fileExistsMsg, dirExistsMsg]
  · simp [detectEntry, hl, wrongLinkDetectMsg, fileExistsMsg, dirExistsMsg]
  · by_cases hd : d = source ++ [n] <;>
      simp [detectEntry, hl, hd, wrongLinkDetectMsg, fileExistsMsg, dirExistsMsg]

/-- C1: conflict detection precision — for a child `n` of an existing source
directory, `target/n` appears in the conflicts returned by `detect_conflicts`
exactly when an entry occupies it that is not a link resolving to `source/n`;
the reason is the wrong-link-target string for a mis-pointing link and the
file-exists / directory-exists string for a plain file or directory. -/
theorem detect_conflicts_precision (source targetDir : FsPath)
    (children : List String) (st : TargetState) (n : String) (hn : n ∈ children) :
    ((∃ r, (targetDir ++ [n], r) ∈ detect_conflicts true source children targetDir st) ↔
      ∃ e, lookupName st.entries n = some e ∧ e ≠ FsNode.link (source ++ [n])) ∧
    ((targetDir ++ [n], wrongLinkDetectMsg) ∈
        detect_conflicts true source children targetDir st ↔
      ∃ d, lookupName st.entries n = some (FsNode.link d) ∧ d ≠ source ++ [n]) ∧
    ((targetDir ++ [n], fileExistsMsg) ∈
        detect_conflicts true source children targetDir st ↔
      lookupName st.entries n = some FsNode.file) ∧
    ((targetDir ++ [n], dirExistsMsg) ∈
        detect_conflicts true source children targetDir st ↔
      lookupName st.entries n = some FsNode.dir) := by
  have hiff := detectEntry_eq_iff source targetDir st n
  refine ⟨?_, ?_, ?_, ?_⟩
  · constructor
    · rintro ⟨r, hr⟩
      exact hiff.2.2.2.mp ⟨r, (mem_detect_iff source targetDir children st n hn r).mp hr⟩
    · intro he
      obtain ⟨r, hr⟩ := hiff.2.2.2.mpr he
      exact ⟨r, (mem_detect_iff source targetDir children st n hn r).mpr hr⟩
  · rw [mem_detect_iff source targetDir children st n hn]
    exact hiff.1
  · rw [mem_detect_iff source targetDir children st n hn]
    exact hiff.2.1
  · rw [mem_detect_iff source targetDir children st n hn]
    exact hiff.2.2.1

/-- Concrete instance of `detect_conflicts_precision`: a plain file at the
target child `a` is reported as a conflict with the file-exists reason. -/
theorem detect_conflicts_precision_witness :
    (["t", "a"], fileExistsMsg) ∈
      detect_conflicts true ["s"] ["a"] ["t"] ⟨true, [("a", FsNode.file)]⟩ :=
  (detect_conflicts_precision ["s"] ["t"] ["a"] ⟨true, [("a", FsNode.file)]⟩ "a"
    (by decide)).2.2.1.mpr (by decide)

theorem create_symlink_absent (force : Bool) (source : FsPath) (m : String)
    (targetDir : FsPath) (st : TargetState)
    (h : lookupName st.entries m = none) :
    create_symlink false force source m targetDir st =
      (.Created source (targetDir ++ [m]),
        ⟨true, (m, FsNode.link source) :: st.entries⟩) := by
  unfold create_symlink finishCreate
  rw [h]
  rcases st with ⟨pe, es⟩
  cases pe <;> rfl

theorem create_symlink_correct_link (dryRun force : Bool) (source : FsPath)
    (m : String) (targetDir : FsPath) (st : TargetState)
    (h : lookupName st.entries m = some (FsNode.link source)) :
    create_symlink dryRun force source m targetDir st =
      (.AlreadyExists (targetDir ++ [m]), st) := by
  simp [create_symlink, h]

theorem create_symlink_file_entry (dryRun force : Bool) (source : FsPath)
    (m : String) (targetDir : FsPath) (st : TargetState)
    (h : lookupName st.entries m = some FsNode.file) :
    create_symlink dryRun force source m targetDir st =
      (.Conflict (targetDir ++ [m]) conflictFileMsg, st) := by
  unfold create_symlink
  rw [h]

theorem create_symlink_dir_entry (dryRun force : Bool) (source : FsPath)
    (m : String) (targetDir : FsPath) (st : TargetState)
    (h : lookupName st.entries m = some FsNode.dir) :
    create_symlink dryRun force source m targetDir st =
      (.Conflict (targetDir ++ [m]) conflictDirMsg, st) := by
  unfold create_symlink
  rw [h]

theorem create_symlink_wrong_link_force (source d : FsPath) (m : String)
    (targetDir : FsPath) (st : TargetState)
    (h : lookupName st.entries m = some (FsNode.link d)) (hd : d ≠ source) :
    create_symlink false true source m targetDir st =
      (.Created source (targetDir ++ [m]),
        ⟨true, (m, FsNode.link source) :: eraseName st.entries m⟩) := by
  rcases st with ⟨pe, es⟩
  simp only at h
  cases pe <;> simp [create_symlink, finishCreate, h, hd]

theorem create_symlink_wrong_link_noforce (dryRun : Bool) (source d : FsPath)
    (m : String) (targetDir : FsPath) (st : TargetState)
    (h : lookupName st.entries m = some (FsNode.link d)) (hd : d ≠ source) :
    create_symlink dryRun false source m targetDir st =
      (.Conflict (targetDir ++ [m]) (wrongLinkConflictMsg d), st) := by
  simp [create_symlink, h, hd]

theorem create_symlink_preserves_good (force : Bool) (source targetDir : FsPath)
    (m n : String) (st : TargetState)
    (h : lookupName st.entries n = some (FsNode.link (source ++ [n]))) :
    lookupName (create_symlink false force (source ++ [m]) m targetDir st).2.entries n =
      some (FsNode.link (source ++ [n])) := by
  by_cases hmn : m = n
  · subst hmn
    rw [create_symlink_correct_link false force (source ++ [m]) m targetDir st h]
    exact h
  · rcases hl : lookupName st.entries m with _ | (_ | _ | d)
    · rw [create_symlink_absent force (source ++ [m]) m targetDir st hl]
      simp only [lookupName, if_neg hmn]
      exact h
    · rw [create_symlink_file_entry false force (source ++ [m]) m targetDir st hl]
      exact h
    · rw [create_symlink_dir_entry false force (source ++ [m]) m targetDir st hl]
      exact h
    · by_cases hd : d = source ++ [m]
      · subst hd
        rw [create_symlink_correct_link false force (source ++ [m]) m targetDir st hl]
        exact h
      · cases force
        · rw [create_symlink_wrong_link_noforce false (source ++ [m]) d m targetDir st hl hd]
          exact h
        · rw [create_symlink_wrong_link_force (source ++ [m]) d m targetDir st hl hd]
          simp only [lookupName, if_neg hmn, lookupName_eraseName, if_neg hmn]
          exact h

theorem applyGo_preserves_good (force : Bool) (source targetDir : FsPath)
    (children : List String) (rep : SymlinkReport) (st : TargetState) (n : String)
    (h : lookupName st.entries n = some (FsNode.link (source ++ [n]))) :
    lookupName (applyGo false force source targetDir children rep st).2.entries n =
      some (FsNode.link (source ++ [n])) := by
  induction children generalizing rep st with
  | nil => exact h
  | cons m rest ih =>
    rw [applyGo]
    exact ih _ _ (create_symlink_preserves_good force source targetDir m n st h)

theorem applyGo_conflicts_prefix (dryRun force : Bool) (source targetDir : FsPath)
    (children : List String) (rep : SymlinkReport) (st : TargetState) :
    ∃ l, (applyGo dryRun force source targetDir children rep st).1.conflicts =
      rep.conflicts ++ l := by
  induction children generalizing rep st with
  | nil => exact ⟨[], (List.append_nil _).symm⟩
  | cons m rest ih =>
    rw [applyGo]
    set r := create_symlink dryRun force (source ++ [m]) m targetDir st with hr
    obtain ⟨l, hl⟩ := ih (rep.add r.1) r.2
    rcases hs : r.1 with ⟨s, t⟩ | t | ⟨t, reason⟩ | ⟨t, reason⟩ <;> rw [hs] at hl
    · exact ⟨l, by simpa [SymlinkReport.add] using hl⟩
    · exact ⟨l, by simpa [SymlinkReport.add] using hl⟩
    · refine ⟨(t, reason) :: l, ?_⟩
      rw [hl]
      simp [SymlinkReport.add]
    · exact ⟨l, by simpa [SymlinkReport.add] using hl⟩

theorem create_symlink_not_conflict_good (force : Bool) (source targetDir : FsPath)
    (m : String) (st : TargetState)
    (h : ∀ t reason,
      (create_symlink false force (source ++ [m]) m targetDir st).1 ≠
        SymlinkStatus.Conflict t reason) :
    lookupName (create_symlink false force (source ++ [m]) m targetDir st).2.entries m =
      some (FsNode.link (source ++ [m])) := by
  rcases hl : lookupName st.entries m with _ | (_ | _ | d)
  · rw [create_symlink_absent force (source ++ [m]) m targetDir st hl]
    simp [lookupName]
  · exact absurd
      (congrArg Prod.fst (create_symlink_file_entry false force (source ++ [m]) m targetDir st hl))
      (h _ _)
  · exact absurd
      (congrArg Prod.fst (create_symlink_dir_entry false force (source ++ [m]) m targetDir st hl))
      (h _ _)
  · by_cases hd : d = source ++ [m]
    · subst hd
      rw [create_symlink_correct_link false force (source ++ [m]) m targetDir st hl]
      exact hl
    · cases force
      · exact absurd
          (congrArg Prod.fst
            (create_symlink_wrong_link_noforce false (source ++ [m]) d m targetDir st hl hd))
          (h _ _)
      · rw [create_symlink_wrong_link_force (source ++ [m]) d m targetDir st hl hd]
        simp [lookupName]

theorem add_conflicts_of_not_conflict (rep : SymlinkReport) (s : SymlinkStatus)
    (h : ∀ t reason, s ≠ SymlinkStatus.Conflict t reason) :
    (rep.add s).conflicts = rep.conflicts := by
  rcases s with ⟨a, b⟩ | t | ⟨t, reason⟩ | ⟨t, reason⟩
  · rfl
  · rfl
  · exact absurd rfl (h t reason)
  · rfl

theorem applyGo_no_conflicts_good (force : Bool) (source targetDir : FsPath)
    (children : List String) (rep : SymlinkReport) (st : TargetState)
    (h : (applyGo false force source targetDir children rep st).1.conflicts =
      rep.conflicts) :
    ∀ n ∈ children,
      lookupName (applyGo false force source targetDir children rep st).2.entries n =
        some (FsNode.link (source ++ [n])) := by
  induction children generalizing rep st with
  | nil => simp
  | cons m rest ih =>
    rw [applyGo] at h ⊢
    have hnc : ∀ t reason,
        (create_symlink false force (source ++ [m]) m targetDir st).1 ≠
          SymlinkStatus.Conflict t reason := by
      intro t reason hc
      obtain ⟨l, hl⟩ := applyGo_conflicts_prefix false force source targetDir rest
        (rep.add (create_symlink false force (source ++ [m]) m targetDir st).1)
        (create_symlink false force (source ++ [m]) m targetDir st).2
      rw [hl, hc] at h
      simp only [SymlinkReport.add, List.append_assoc] at h
      have := congrArg List.length h
      simp at this
    have hstep := add_conflicts_of_not_conflict rep
      (create_symlink false force (source ++ [m]) m targetDir st).1 hnc
    rw [← hstep] at h
    intro n hn
    rcases List.mem_cons.mp hn with hn | hn
    · subst hn
      exact applyGo_preserves_good force source targetDir rest _ _ n
        (create_symlink_not_conflict_good force source targetDir n st hnc)
    · exact ih _ _ h n hn

theorem applyGo_all_good (force : Bool) (source targetDir : FsPath)
    (children : List String) (rep : SymlinkReport) (st : TargetState)
    (h : ∀ n ∈ children, lookupName st.entries n = some (FsNode.link (source ++ [n]))) :
    applyGo false force source targetDir children rep st =
      ({ rep with already_exists :=
          rep.already_exists ++ children.map (fun n => targetDir ++ [n]) }, st) := by
  induction children generalizing rep with
  | nil => simp [applyGo]
  | cons m rest ih =>
    have hm := h m (by simp)
    have hstep := create_symlink_correct_link false force (source ++ [m]) m targetDir st hm
    simp only [applyGo, hstep]
    rw [ih _ (fun n hn => h n (by simp [hn]))]
    simp [SymlinkReport.add, List.append_assoc]

/-- C2: idempotence of apply — if a non-dry-run `apply` (`symlink`) call over
an existing source succeeds with no conflicts, then a second call with the
identical arguments on the resulting state succeeds, leaves the state
untouched, and reports `AlreadyExists` for every source entry (and nothing
else). -/
theorem apply_idempotent (force : Bool) (source targetDir : FsPath)
    (children : List String) (st st1 : TargetState) (rep : SymlinkReport)
    (h : symlink false force true source children targetDir st = .ok (rep, st1))
    (hc : rep.conflicts = []) :
    symlink false force true source children targetDir st1 =
      .ok ({ created := [],
             already_exists := children.map (fun n => targetDir ++ [n]),
             conflicts := [], skipped := [] }, st1) := by
  unfold symlink at h ⊢
  rw [if_pos rfl] at h ⊢
  have hpair : applyGo false force source targetDir children SymlinkReport.new st =
      (rep, st1) := by
    injection h
  have hgood := applyGo_no_conflicts_good force source targetDir children
    SymlinkReport.new st (by rw [hpair]; exact hc)
  rw [hpair] at hgood
  rw [applyGo_all_good force source targetDir children SymlinkReport.new st1
    (fun n hn => hgood n hn)]
  rfl

/-- Concrete instance of `apply_idempotent`: after a first conflict-free run
links the single child `a`, a second identical run reports `AlreadyExists`
for it and changes nothing. -/
theorem apply_idempotent_witness :
    symlink false false true ["s"] ["a"] ["t"]
        ⟨true, [("a", FsNode.link ["s", "a"])]⟩ =
      .ok (⟨[], [["t", "a"]], [], []⟩, ⟨true, [("a", FsNode.link ["s", "a"])]⟩) :=
  apply_idempotent false ["s"] ["t"] ["a"] ⟨true, []⟩
    ⟨true, [("a", FsNode.link ["s", "a"])]⟩ ⟨[["t", "a"]], [], [], []⟩
    (by rfl) (by rfl)

/-!
Secret scanner (src/backup/secrets.rs). Text is modelled as lists of
characters; a file is its list of lines (the `content.lines()` split).
The `env_var` regular expression of `SecretPatterns::new` is embedded as an
executable matcher with the leftmost-first semantics of the Rust regex
crate: `findCaptures` scans start offsets left to right; at an offset the
optional `export` prefix (followed by at least one whitespace character) is
preferred; capture group 1 is `[A-Z_]*(TOKEN|KEY|SECRET|PASSWORD|PASS|AUTH)[A-Z_]*`
— a maximal run of uppercase/underscore characters containing a keyword,
with `=` directly after it — and capture group 2 is `[^'"\s]+` after an
optional opening quote, with an optional closing quote. The `\s` class is
modelled as ASCII whitespace (`Char.isWhitespace`).
-/

/-- A line of text, as a list of characters. -/
abbrev TextLine : Type := List Char

/-- The character class `[A-Z_]` of the `env_var` pattern. -/
def upperUnd (c : Char) : Bool := (decide ('A' ≤ c) && decide (c ≤ 'Z')) || c == '_'

/-- Whether `p` is a prefix of `s` (character-by-character). -/
def startsWithSeg : TextLine → TextLine → Bool
  | [], _ => true
  | _ :: _, [] => false
  | p :: ps, c :: cs => p == c && startsWithSeg ps cs

/-- Whether `pat` occurs as a contiguous substring of the second list. -/
def containsSeg (pat : TextLine) : TextLine → Bool
  | [] => startsWithSeg pat []
  | c :: rest => startsWithSeg pat (c :: rest) || containsSeg pat rest

/-- The require-one-of keyword list of `is_likely_secret`. -/
def secretKeywords : List TextLine :=
  ["TOKEN".toList, "KEY".toList, "SECRET".toList,
   "PASSWORD".toList, "PASS".toList, "AUTH".toList]

/-- The deny-substring list of `is_likely_secret`. -/
def nonSecretKeywords : List TextLine :=
  ["PUBLIC_KEY".toList, "SSH_KEY_PATH".toList, "KEY_FILE".toList, "KEYMAP".toList]

/-- `is_likely_secret` (secrets.rs lines 92-112). -/
def is_likely_secret (key : TextLine) : Bool :=
  let key_upper := key.map Char.toUpper
  let has_secret_keyword := secretKeywords.any (fun kw => containsSeg kw key_upper)
  let is_non_secret := nonSecretKeywords.any (fun kw => containsSeg kw key_upper)
  has_secret_keyword && !is_non_secret

/-- The value character class `[^'"\s]` of the `env_var` pattern. -/
def valueChar (c : Char) : Bool := !(c == '\'' || c == '"' || c.isWhitespace)

/-- Capture group 2 of the `env_var` pattern after the `=` sign: an optional
opening quote (preferred, abandoned if no value character follows), then a
maximal nonempty run of value characters. -/
def parseValue : TextLine → Option TextLine
  | [] => none
  | c :: rest =>
    if c == '\'' || c == '"' then
      let v := rest.takeWhile valueChar
      if v.isEmpty then none else some v
    else
      let v := (c :: rest).takeWhile valueChar
      if v.isEmpty then none else some v

/-- Match of the `env_var` pattern at the current offset without the
`export` prefix: capture group 1 is the maximal `[A-Z_]` run starting here,
which must contain a keyword and be followed by `=` and a value. -/
def matchAssign (s : TextLine) : Option (TextLine × TextLine) :=
  let run := s.takeWhile upperUnd
  let rest := s.dropWhile upperUnd
  if secretKeywords.any (fun kw => containsSeg kw run) then
    match rest with
    | '=' :: after => (parseValue after).map (fun v => (run, v))
    | _ => none
  else none

/-- The optional `export\s+` prefix of the `env_var` pattern: the literal
`export` followed by at least one whitespace character. -/
def stripExportWs (s : TextLine) : Option TextLine :=
  if startsWithSeg ("export".toList) s then
    let after := s.drop 6
    if (after.takeWhile Char.isWhitespace).isEmpty then none
    else some (after.dropWhile Char.isWhitespace)
  else none

/-- Match of the `env_var` pattern at the current offset: the branch taking
the `export` prefix is preferred, falling back to a match without it. -/
def matchWithExport (s : TextLine) : Option (TextLine × TextLine) :=
  match stripExportWs s with
  | some rest =>
    match matchAssign rest with
    | some r => some r
    | none => matchAssign s
  | none => matchAssign s

/-- `SecretPatterns::new().env_var.captures(line)` (secrets.rs line 33):
the two capture groups of the leftmost match of the pattern, if any. -/
def findCaptures : TextLine → Option (TextLine × TextLine)
  | [] => none
  | c :: rest =>
    match matchWithExport (c :: rest) with
    | some r => some r
    | none => findCaptures rest

/-- Comment test of `scan_file` (secrets.rs lines 64-67): the line left-trimmed
of whitespace starts with `#` or `//`. -/
def isCommentLine (line : TextLine) : Bool :=
  let trimmed := line.dropWhile Char.isWhitespace
  startsWithSeg ("#".toList) trimmed || startsWithSeg ("//".toList) trimmed

/-- Rust `Secret` struct (secrets.rs lines 10-15). -/
structure Secret where
  key : TextLine
  value : TextLine
  file : TextLine
  line_number : Nat
deriving DecidableEq

/-- Loop body of `scan_file` for the 0-indexed line `idx` (secrets.rs lines
62-86): skip comments, take the `env_var` captures, keep the secret when
`is_likely_secret` accepts the key. -/
def scanLineOpt (fileName : TextLine) (idx : Nat) (line : TextLine) : Option Secret :=
  if isCommentLine line then none
  else
    match findCaptures line with
    | some (k, v) =>
      if is_likely_secret k then some ⟨k, v, fileName, idx + 1⟩ else none
    | none => none

/-- `scan_file` (secrets.rs lines 51-89), over the list of lines of the file. -/
def scan_file (fileName : TextLine) (lines : List TextLine) : List Secret :=
  lines.enum.filterMap (fun p => scanLineOpt fileName p.1 p.2)

/-- The two header comment lines and blank line written by `extract_to_env`
(secrets.rs lines 156-157). -/
def headerLines : List TextLine :=
  ["# Extracted secrets - DO NOT COMMIT THIS FILE".toList,
   "# Add this file to .gitignore".toList,
   []]

/-- Loop of `extract_to_env` (secrets.rs lines 160-169): one `KEY=value` line
per secret whose key was not seen before, in input order (`seen` is the
`seen_keys` set). -/
def extractGo (seen : List TextLine) : List Secret → List TextLine
  | [] => []
  | s :: rest =>
    if s.key ∈ seen then extractGo seen rest
    else (s.key ++ '=' :: s.value) :: extractGo (s.key :: seen) rest

/-- `extract_to_env` (secrets.rs lines 154-174), as the list of lines of the
written file. -/
def extract_to_env (secrets : List Secret) : List TextLine :=
  headerLines ++ extractGo [] secrets

/-- Dedup-by-key keeping the first occurrence, as the spec states it: each
secret is kept exactly when no earlier secret has the same key. -/
def dedupByKeyFirst : List Secret → List Secret
  | [] => []
  | s :: rest => s :: dedupByKeyFirst (rest.filter (fun t => decide (t.key ≠ s.key)))
termination_by l => l.length
decreasing_by
  simp only [List.length_cons]
  exact Nat.lt_succ_of_le (List.length_filter_le _ _)

theorem extractGo_eq (secrets : List Secret) (seen : List TextLine) :
    extractGo seen secrets =
      (dedupByKeyFirst (secrets.filter (fun s => decide (s.key ∉ seen)))).map
        (fun s => s.key ++ '=' :: s.value) := by
  induction secrets generalizing seen with
  | nil => simp [extractGo, dedupByKeyFirst]
  | cons s rest ih =>
    by_cases hs : s.key ∈ seen
    · rw [extractGo, if_pos hs, ih,
        List.filter_cons_of_neg (by simpa using hs)]
    · rw [extractGo, if_neg hs, ih,
        List.filter_cons_of_pos (by simpa using hs), dedupByKeyFirst]
      rw [List.map_cons]
      have hfuse : rest.filter (fun t => decide (t.key ∉ s.key :: seen)) =
          (rest.filter (fun t => decide (t.key ∉ seen))).filter
            (fun t => decide (t.key ≠ s.key)) := by
        rw [List.filter_filter]
        apply List.filter_congr
        intro t _
        simp [List.mem_cons, not_or, and_comm]
      rw [hfuse]

/-- C4: dedup-by-key, first-wins — the file written by `extract_to_env` is
the header block followed by exactly one `KEY=value` line per distinct key,
in input order, carrying the value of the first secret with that key; later
secrets with an already-seen key contribute nothing. -/
theorem extract_dedup_first_wins (secrets : List Secret) :
    extract_to_env secrets =
      headerLines ++ (dedupByKeyFirst secrets).map (fun s => s.key ++ '=' :: s.value) := by
  unfold extract_to_env
  rw [extractGo_eq]
  congr 2
  simp

theorem scanLineOpt_comment (fileName : TextLine) (idx : Nat) (line : TextLine)
    (h : isCommentLine line = true) : scanLineOpt fileName idx line = none := by
  simp [scanLineOpt, h]

theorem scanLineOpt_line_number (fileName : TextLine) (idx : Nat) (line : TextLine)
    (s : Secret) (h : scanLineOpt fileName idx line = some s) :
    s.line_number = idx + 1 := by
  unfold scanLineOpt at h
  split at h
  · exact absurd h (by simp)
  · split at h
    · split at h
      · cases h
        rfl
      · exact absurd h (by simp)
    · exact absurd h (by simp)

theorem mem_scan_file (fileName : TextLine) (lines : List TextLine) (s : Secret) :
    s ∈ scan_file fileName lines ↔
      ∃ i line, lines[i]? = some line ∧ scanLineOpt fileName i line = some s := by
  unfold scan_file
  rw [List.mem_filterMap]
  constructor
  · rintro ⟨⟨i, line⟩, hmem, hf⟩
    exact ⟨i, line, List.mk_mem_enum_iff_getElem?.mp hmem, hf⟩
  · rintro ⟨i, line, hget, hf⟩
    exact ⟨(i, line), List.mk_mem_enum_iff_getElem?.mpr hget, hf⟩

/-- C9: comment suppression — a line whose left-trimmed content starts with
`#` or `//` yields no secret from `scan_file`: no reported secret carries
that line's 1-indexed number. -/
theorem comment_suppression (fileName : TextLine) (lines : List TextLine)
    (i : Nat) (line : TextLine)
    (h1 : lines[i]? = some line) (h2 : isCommentLine line = true) :
    (scan_file fileName lines).all (fun s => s.line_number != i + 1) = true := by
  rw [List.all_eq_true]
  intro s hs
  obtain ⟨j, line', hget, hf⟩ := (mem_scan_file fileName lines s).mp hs
  have hln := scanLineOpt_line_number fileName j line' s hf
  simp only [bne_iff_ne, ne_eq]
  intro heq
  rw [hln] at heq
  have hji : j = i := Nat.succ_injective heq
  subst hji
  rw [h1] at hget
  injection hget with hl
  subst hl
  rw [scanLineOpt_comment fileName j line h2] at hf
  exact absurd hf (by simp)

/-- Concrete instance of `comment_suppression`: a commented-out assignment
line contributes no secret. -/
theorem comment_suppression_witness :
    (scan_file "config.sh".toList
      ["# export API_TOKEN=abc123".toList]).all (fun s => s.line_number != 0 + 1) = true :=
  comment_suppression "config.sh".toList ["# export API_TOKEN=abc123".toList] 0
    "# export API_TOKEN=abc123".toList (by rfl) (by rfl)

theorem is_likely_secret_eq_true_iff (key : TextLine) :
    is_likely_secret key = true ↔
      (secretKeywords.any (fun kw => containsSeg kw (key.map Char.toUpper)) = true ∧
       nonSecretKeywords.any (fun kw => containsSeg kw (key.map Char.toUpper)) = false) := by
  simp only [is_likely_secret, Bool.and_eq_true, Bool.not_eq_true']

/-- C3: secret acceptance rule — for a non-comment line captured by the
environment-assignment pattern with identifier `k` and value `v`, `scan_file`
reports the corresponding secret exactly when the uppercased identifier
contains one of the allow keywords and none of the deny substrings. -/
theorem scan_file_acceptance (fileName : TextLine) (lines : List TextLine)
    (i : Nat) (line k v : TextLine)
    (h1 : lines[i]? = some line)
    (h2 : isCommentLine line = false)
    (h3 : findCaptures line = some (k, v)) :
    ((⟨k, v, fileName, i + 1⟩ : Secret) ∈ scan_file fileName lines ↔
      (secretKeywords.any (fun kw => containsSeg kw (k.map Char.toUpper)) = true ∧
       nonSecretKeywords.any (fun kw => containsSeg kw (k.map Char.toUpper)) = false)) := by
  rw [mem_scan_file, ← is_likely_secret_eq_true_iff]
  constructor
  · rintro ⟨j, line', hget, hf⟩
    have hln : i + 1 = j + 1 := scanLineOpt_line_number fileName j line' _ hf
    have hji : j = i := (Nat.succ_injective hln).symm
    subst hji
    rw [h1] at hget
    injection hget with hl
    subst hl
    simp only [scanLineOpt, h2, h3, Bool.false_eq_true, if_false] at hf
    by_cases hlike : is_likely_secret k = true
    · exact hlike
    · rw [if_neg (by simpa using hlike)] at hf
      exact absurd hf (by simp)
  · intro hlike
    refine ⟨i, line, h1, ?_⟩
    simp only [scanLineOpt, h2, h3, Bool.false_eq_true, if_false, if_pos hlike]

/-- Concrete instance of `scan_file_acceptance`: the captured key `API_TOKEN`
on the non-comment line `export API_TOKEN=abc123` passes the allow/deny rule
and is reported by `scan_file`. -/
theorem scan_file_acceptance_witness :
    ((⟨"API_TOKEN".toList, "abc123".toList, "config.sh".toList, 0 + 1⟩ : Secret) ∈
      scan_file "config.sh".toList ["export API_TOKEN=abc123".toList]) :=
  (scan_file_acceptance "config.sh".toList ["export API_TOKEN=abc123".toList] 0
    "export API_TOKEN=abc123".toList "API_TOKEN".toList "abc123".toList
    (by rfl) (by rfl) (by rfl)).mpr (by decide)
